import Mathlib

/-!
Shallow embedding of the go-mcast Generic Multicast protocol core.

The Go sources embedded here are:
  - `pkg/mcast/protocol.go`, which concatenates the `Unity` engine
    (checkRPCHeader, processCompute, processGather, emitGather, max) and the
    `core.Peer` engine (Command, process, processInitialMessage,
    exchangeTimestamp, send, doDeliver);
  - the `core.Deliver` delivery component (Deliver.Commit).

Pure functions are translated to Lean functions; the mutable peer state
(logical clock, previous set, memo of received timestamps) is threaded
explicitly.  Timestamps are Go `uint64`; clock overflow is documented as out
of scope by the repository, and only increments, comparisons and maxima of
small values occur here, so they are embedded as `Nat`.  Go byte slices that
the protocol never inspects (keys, contents, extensions) are embedded as
opaque `String`s, and Go `error` values as their message strings.  Effects
(messages handed to the transport, responses written to a channel, a channel
being closed) are returned as explicit data.
-/

namespace GoMcast

/-- Unique message identifier (`types.UID`, a string in Go). -/
abbrev UID := String

/-- A partition name (`types.Partition`, a string in Go). -/
abbrev Partition := String

/-- A Go `error` value, embedded as its message string. -/
abbrev GoError := String

/-- Message protocol states, `types.S0 .. types.S3`. -/
inductive MessageState where
  | S0
  | S1
  | S2
  | S3
deriving DecidableEq, Repr

/-- Message types (`types.Initial`, `types.External`); the Go value is an
integer, so `Other` stands for any further value, handled by the `default`
branch of `Peer.process`. -/
inductive MessageType where
  | Initial
  | External
  | Other
deriving DecidableEq, Repr

/-- Operations carried by a message content (`types.Command`,
`types.Query`); the Go value is an integer, so `Other` stands for any
further value, handled by the `default` branch of `Deliver.Commit`. -/
inductive Operation where
  | Command
  | Query
  | Other
deriving DecidableEq, Repr

/-- `types.DataHolder`: the client payload transferred by a message. -/
structure DataHolder where
  Operation : Operation
  Key : String
  Content : String
  Extensions : String
deriving DecidableEq, Repr

/-- The message header (`types.ProtocolHeader`): the protocol version and
the message type.  The Go field `Type` is named `MType` here because `Type`
is reserved in Lean. -/
structure Header where
  ProtocolVersion : Nat
  MType : MessageType
deriving DecidableEq, Repr

/-- `types.Message`: the protocol message. -/
structure Message where
  Header : Header
  Identifier : UID
  Content : DataHolder
  State : MessageState
  Timestamp : Nat
  Destination : List Partition
  From : Partition
deriving DecidableEq, Repr

/-- `types.Response`: the response sent back to a client.  A nil Go slice
and an empty slice are indistinguishable to the protocol, so `Data` is a
plain list with `[]` for nil. -/
structure Response where
  Success : Bool
  Data : List DataHolder
  Failure : Option GoError
deriving DecidableEq, Repr

/-- Modelled from the spec: the `LogicalClock` component is not under the
provided sources.  Spec section 4.1: `tick()` increments; `tock()` reads;
`leap(t)` sets to `max(current, t)`. -/
structure LogicalClock where
  value : Nat
deriving DecidableEq, Repr

/-- Modelled from the spec: `tick` is the only unconditional increment. -/
def LogicalClock.Tick (c : LogicalClock) : LogicalClock :=
  { value := c.value + 1 }

/-- Modelled from the spec: `tock()` reads the current value. -/
def LogicalClock.Tock (c : LogicalClock) : Nat :=
  c.value

/-- Modelled from the spec: `leap(t)` sets the clock to `max(current, t)`;
`leap` never decreases. -/
def LogicalClock.Leap (c : LogicalClock) (t : Nat) : LogicalClock :=
  { value := max c.value t }

/-- Modelled from the spec: the `Memo` component is not under the provided
sources.  Spec section 3: mapping `id → (mapping partition → timestamp)`;
supports Insert, Read(id) → list of timestamps, Remove(id).  Embedded as an
association list keyed by `(id, partition)`. -/
structure Memo where
  entries : List (UID × Partition × Nat)
deriving DecidableEq, Repr

/-- Modelled from the spec: `Memo.Insert` overwrites per-(id, partition)
entries, so retransmits do not inflate the received count. -/
def Memo.Insert (mem : Memo) (id : UID) (p : Partition) (ts : Nat) : Memo :=
  { entries :=
      (id, p, ts) :: mem.entries.filter (fun e => !(e.1 = id ∧ e.2.1 = p)) }

/-- Modelled from the spec: `Memo.Read id` returns the list of timestamps
recorded for `id`, one per contributing partition. -/
def Memo.Read (mem : Memo) (id : UID) : List Nat :=
  (mem.entries.filter (fun e => e.1 = id)).map (fun e => e.2.2)

/-- Modelled from the spec: `Memo.Remove id` drops every timestamp recorded
for `id`. -/
def Memo.Remove (mem : Memo) (id : UID) : Memo :=
  { entries := mem.entries.filter (fun e => !(e.1 = id)) }

/-- `helper.MaxValue` is not under the provided sources; the in-source
`max` helper of the Unity engine (protocol.go) computes the maximum of a
`uint64` slice by folding with 0, and the spec's gather rule is
`tsm = max of received timestamps`; embedded with the in-source fold. -/
def MaxValue (values : List Nat) : Nat :=
  values.foldl (fun v e => if e > v then e else v) 0

/-- `types.PeerConfiguration` restricted to the fields the protocol engine
reads, together with the pluggable conflict relationship
(`configuration.Conflict`, spec: `Conflict(m, snapshot) → bool`, pure and
deterministic). -/
structure PeerConfiguration where
  Name : String
  Partition : Partition
  Version : Nat
  Conflict : Message → List Message → Bool

/-- The mutable protocol state owned by one peer: the logical clock, the
previous set (`PreviousSet` is not under the provided sources; modelled
from the spec as the list of appended messages, `Snapshot` returning it,
`Clear` emptying it), and the memo of received timestamps. -/
structure PeerState where
  clock : LogicalClock
  previousSet : List Message
  received : Memo
deriving DecidableEq, Repr

/-- Which kind of emission `Peer.send` performs: `inner` stays inside the
partition, `outer` reaches every destination partition. -/
inductive Emission where
  | inner
  | outer
deriving DecidableEq, Repr

/-- One message handed to the transport by `Peer.send`: the stamped message
and the partitions it is unicast to. -/
structure SendEffect where
  message : Message
  destination : List Partition
deriving DecidableEq, Repr

/-- `Peer.send` (protocol.go): stamps the message type and the sending
partition, then unicasts to the local partition (inner) or to every
destination partition (outer). -/
def Peer.send (cfg : PeerConfiguration) (message : Message) (t : MessageType)
    (e : Emission) : SendEffect :=
  let stamped :=
    { message with
        Header := { message.Header with MType := t },
        From := cfg.Partition }
  match e with
  | Emission.inner => { message := stamped, destination := [cfg.Partition] }
  | Emission.outer => { message := stamped, destination := stamped.Destination }

/-- `Peer.processInitialMessage` (protocol.go): the Initial-processing
rules.  Returns the updated peer state, the updated message, and the
messages handed to the transport. -/
def Peer.processInitialMessage (cfg : PeerConfiguration) (s : PeerState)
    (message : Message) : PeerState × Message × List SendEffect :=
  let step :=
    if message.State = MessageState.S0 then
      let s1 :=
        if cfg.Conflict message s.previousSet then
          { s with clock := s.clock.Tick, previousSet := [] }
        else s
      let m1 := { message with Timestamp := s1.clock.Tock }
      ({ s1 with previousSet := s1.previousSet ++ [m1] }, m1)
    else (s, message)
  let s2 := step.1
  let m2 := step.2
  if m2.Destination.length > 1 then
    if m2.State = MessageState.S0 then
      let m3 := { m2 with State := MessageState.S1, Timestamp := s2.clock.Tock }
      let s3 :=
        { s2 with
            received :=
              s2.received.Insert m3.Identifier cfg.Partition m3.Timestamp }
      (s3, m3, [Peer.send cfg m3 MessageType.External Emission.outer])
    else if m2.State = MessageState.S2 then
      let m3 := { m2 with State := MessageState.S3 }
      let s3 :=
        if m3.Timestamp > s2.clock.Tock then
          { s2 with clock := s2.clock.Leap m3.Timestamp, previousSet := [] }
        else s2
      (s3, m3, [])
    else (s2, m2, [])
  else
    (s2, { m2 with Timestamp := s2.clock.Tock, State := MessageState.S3 }, [])

/-- `Peer.exchangeTimestamp` (protocol.go): records the foreign timestamp in
the memo, and once at least `|m.Destination|` timestamps are recorded,
decides S3 (timestamp already the maximum) or S2 (lift the timestamp to the
maximum).  The returned Bool is the `enqueue` result of the Go function. -/
def Peer.exchangeTimestamp (s : PeerState) (message : Message) :
    PeerState × Message × Bool :=
  let s1 :=
    { s with
        received :=
          s.received.Insert message.Identifier message.From message.Timestamp }
  let values := s1.received.Read message.Identifier
  if values.length < message.Destination.length then
    (s1, message, false)
  else
    let tsm := MaxValue values
    if message.Timestamp ≥ tsm then
      (s1, { message with State := MessageState.S3 }, true)
    else
      (s1, { message with Timestamp := tsm, State := MessageState.S2 }, true)

/-- The outcome of `Peer.process`: the updated peer state, the message as
left by the processing, whether it is enqueued into the received queue
(`finishMessageProcessing` runs only when the Go `enqueue` flag is true),
and the messages handed to the transport. -/
structure ProcessResult where
  peer : PeerState
  message : Message
  enqueued : Bool
  sends : List SendEffect
deriving DecidableEq, Repr

/-- `Peer.process` (protocol.go): drops version mismatches, drops messages
the received queue no longer accepts (`rqueue.IsEligible`, a component not
under the provided sources, is abstracted as the predicate `elig`), then
dispatches on the message type. -/
def Peer.process (cfg : PeerConfiguration) (elig : Message → Bool)
    (s : PeerState) (message : Message) : ProcessResult :=
  if message.Header.ProtocolVersion ≠ cfg.Version then
    { peer := s, message := message, enqueued := false, sends := [] }
  else if !(elig message) then
    { peer := s, message := message, enqueued := false, sends := [] }
  else
    match message.Header.MType with
    | MessageType.Initial =>
        let r := Peer.processInitialMessage cfg s message
        { peer := r.1, message := r.2.1, enqueued := true, sends := r.2.2 }
    | MessageType.External =>
        let r := Peer.exchangeTimestamp s message
        { peer := r.1, message := r.2.1, enqueued := r.2.2, sends := [] }
    | MessageType.Other =>
        { peer := s, message := message, enqueued := false, sends := [] }

/-- `ErrCommandUnknown` of the delivery component. -/
def ErrCommandUnknown : GoError :=
  "unknown command applied into state machine"

/-- `Deliver.Commit`: commits a message on the peer state machine and shapes
the client response.  The pluggable `types.StateMachine` is abstracted by
its two observable outcomes: `commitResult` (the error of
`sm.Commit(m, isGenericDelivery)`, `none` on success) and `historyResult`
(the outcome of `sm.History()`). -/
def Deliver.Commit (commitResult : Option GoError)
    (historyResult : Except GoError (List Message)) (m : Message) : Response :=
  match commitResult with
  | some err => { Success := false, Data := [], Failure := some err }
  | none =>
      match m.Content.Operation with
      | Operation.Command =>
          { Success := true, Data := [m.Content], Failure := none }
      | Operation.Query =>
          match historyResult with
          | Except.error err =>
              { Success := false, Data := [], Failure := some err }
          | Except.ok messages =>
              { Success := true,
                Data := messages.map (fun msg => msg.Content),
                Failure := none }
      | Operation.Other =>
          { Success := false, Data := [], Failure := some ErrCommandUnknown }

/-- The observable effect of `Peer.Command`: the response written directly
to the returned channel (only in the broadcast-failure path), whether an
observer was registered for the message, and whether `Command` itself
closed the channel (it never does; only `doDeliver` closes it). -/
structure CommandEffect where
  response : Option Response
  registered : Bool
  closed : Bool
deriving DecidableEq, Repr

/-- `Peer.Command` (protocol.go): broadcasts the message; on a broadcast
error it writes a failure response into the returned channel and returns
without registering an observer and without closing the channel; on success
it registers an observer keyed by the message identifier and returns. -/
def Peer.Command (broadcastErr : Option GoError) (message : Message) :
    CommandEffect :=
  match broadcastErr with
  | some err =>
      { response :=
          some
            { Success := false,
              Data := [message.Content],
              Failure := some err },
        registered := false,
        closed := false }
  | none => { response := none, registered := true, closed := false }

/-- The observable effect of `Peer.doDeliver` on the observer of the
delivered message: the response written to the observer channel (dropped
when the 150 ms notify timeout fires first), whether the channel was
closed, whether the observer was removed, and whether the memo entry of the
message was removed. -/
structure DeliverEffect where
  notified : Option Response
  closed : Bool
  observerRemoved : Bool
  memoRemoved : Bool
deriving DecidableEq, Repr

/-- `Peer.doDeliver` (protocol.go): removes the memo entry, commits through
the deliverable, and when an observer is registered for the message it
sends the commit response (unless the bounded notify wait times out),
closes the observer channel and removes the observer.  When no observer is
registered nothing further happens. -/
def Peer.doDeliver (registered : Bool) (notifyTimedOut : Bool)
    (res : Response) : DeliverEffect :=
  if registered then
    { notified := if notifyTimedOut then none else some res,
      closed := true,
      observerRemoved := true,
      memoRemoved := true }
  else
    { notified := none,
      closed := false,
      observerRemoved := false,
      memoRemoved := true }

/-- `GatherRequest` of the Unity engine: a server is `(id, address)`. -/
structure GatherRequest where
  UID : UID
  State : MessageState
  Timestamp : Nat
  Destination : List (String × String)
deriving DecidableEq, Repr

/-- `GatherResponse` of the Unity engine; a fresh Go response carries the
zero values `S0` and `0` until the handler assigns its fields. -/
structure GatherResponse where
  UID : UID
  State : MessageState
  Timestamp : Nat
deriving DecidableEq, Repr

/-- The outcome of the single select of `Unity.emitGather`: either the
first gather response arrived on the channel, or the 5 second wait
elapsed. -/
inductive GatherOutcome where
  | response (res : GatherResponse)
  | timeout
deriving DecidableEq, Repr

/-- The result of `Unity.emitGather`: either the computed `tsm`, or a Go
`panic` with its message. -/
inductive GatherResult where
  | value (tsm : Nat)
  | panicked (msg : String)
deriving DecidableEq, Repr

/-- `Unity.emitGather` (protocol.go): waits once on the response channel;
on a received response the counter reaches 1 and `tsm` is taken from the
response only when all destinations have answered, otherwise `tsm` keeps
its zero value; when the 5 second wait elapses the function panics with
"timeout gathering" (the source marks this branch
`fixme: returns error on timeout`). -/
def Unity.emitGather (req : GatherRequest) (outcome : GatherOutcome) :
    GatherResult :=
  match outcome with
  | GatherOutcome.response res =>
      let received := 1
      if received = req.Destination.length then GatherResult.value res.Timestamp
      else GatherResult.value 0
  | GatherOutcome.timeout => GatherResult.panicked "timeout gathering"

/-- The Unity engine state read by its handlers: the group clock
(`state.Clk`), the global clock (`clock`) and the Unity previous set of
`(addresses, uid)` registrations. -/
structure UnityState where
  Clk : LogicalClock
  clock : LogicalClock
  previousSet : List (List String × UID)
deriving DecidableEq, Repr

/-- `Unity.processGather` (protocol.go): builds the response from the
global clock reading, writing no Unity state; the state is returned
untouched.  When `r.Timestamp ≥ clock.Tock()` the response state is `S3`
(its timestamp keeps the zero value); otherwise the response carries the
clock reading and state `S2`. -/
def Unity.processGather (u : UnityState) (r : GatherRequest) :
    UnityState × GatherResponse :=
  if r.Timestamp ≥ u.clock.Tock then
    (u, { UID := r.UID, State := MessageState.S3, Timestamp := 0 })
  else
    (u, { UID := r.UID, State := MessageState.S2, Timestamp := u.clock.Tock })

/-! Concrete values used by the witness theorems. -/

/-- A concrete command payload. -/
def exContent : DataHolder :=
  { Operation := Operation.Command, Key := "k", Content := "v",
    Extensions := "" }

/-- A concrete query payload. -/
def exQueryContent : DataHolder :=
  { Operation := Operation.Query, Key := "k", Content := "",
    Extensions := "" }

/-- A concrete command message addressed to a single partition. -/
def exMessage : Message :=
  { Header := { ProtocolVersion := 1, MType := MessageType.Initial },
    Identifier := "uid-1", Content := exContent, State := MessageState.S0,
    Timestamp := 0, Destination := ["A"], From := "A" }

/-- A concrete query message. -/
def exQueryMessage : Message :=
  { exMessage with Content := exQueryContent }

/-- A concrete peer configuration whose conflict relation never fires. -/
def exCfg : PeerConfiguration :=
  { Name := "peer-0", Partition := "A", Version := 1,
    Conflict := fun _ _ => false }

/-- A concrete peer configuration whose conflict relation always fires. -/
def exCfgConflict : PeerConfiguration :=
  { Name := "peer-0", Partition := "A", Version := 1,
    Conflict := fun _ _ => true }

/-- A concrete peer state with clock reading 5 and one recorded timestamp
from partition A for message `uid-1`. -/
def exPeerState : PeerState :=
  { clock := { value := 5 }, previousSet := [],
    received := { entries := [("uid-1", "A", 5)] } }

/-- A concrete Unity state with global clock reading 5. -/
def exUnity : UnityState :=
  { Clk := { value := 2 }, clock := { value := 5 }, previousSet := [] }

/-- A concrete gather request carrying a timestamp below `exUnity`'s global
clock reading. -/
def exGatherReq : GatherRequest :=
  { UID := "uid-1", State := MessageState.S1, Timestamp := 3,
    Destination := [("s1", "a1"), ("s2", "a2")] }

/-! Claim theorems. -/

/-- Claim C5: `Deliverable.Commit(m, g)` returns success=false with the
commit error whenever the state-machine commit errors; on success with a
Command operation the response is success=true with data `[m.Content]`; on
success with a Query operation whose history read yields `messages`, the
data lists the content of every history message, in order. -/
theorem deliver_commit_spec (commitResult : Option GoError)
    (historyResult : Except GoError (List Message)) (m : Message) :
    (∀ err, commitResult = some err →
      Deliver.Commit commitResult historyResult m
        = { Success := false, Data := [], Failure := some err })
  ∧ (commitResult = none → m.Content.Operation = Operation.Command →
      Deliver.Commit commitResult historyResult m
        = { Success := true, Data := [m.Content], Failure := none })
  ∧ (∀ messages, commitResult = none →
      m.Content.Operation = Operation.Query →
      historyResult = Except.ok messages →
      Deliver.Commit commitResult historyResult m
        = { Success := true, Data := messages.map (fun msg => msg.Content),
            Failure := none }) := by
  refine ⟨?_, ?_, ?_⟩
  · intro err h
    subst h
    simp [Deliver.Commit]
  · intro h1 h2
    subst h1
    simp [Deliver.Commit, h2]
  · intro messages h1 h2 h3
    subst h1
    subst h3
    simp [Deliver.Commit, h2]

/-- Witness for C5: the three branches of `deliver_commit_spec` evaluated at
concrete inputs. -/
theorem deliver_commit_spec_witness :
    Deliver.Commit (some "boom") (Except.ok []) exMessage
      = { Success := false, Data := [], Failure := some "boom" }
  ∧ Deliver.Commit none (Except.ok []) exMessage
      = { Success := true, Data := [exMessage.Content], Failure := none }
  ∧ Deliver.Commit none (Except.ok [exMessage]) exQueryMessage
      = { Success := true,
          Data := [exMessage].map (fun msg => msg.Content),
          Failure := none } :=
  ⟨(deliver_commit_spec (some "boom") (Except.ok []) exMessage).1 "boom" rfl,
   (deliver_commit_spec none (Except.ok []) exMessage).2.1 rfl rfl,
   (deliver_commit_spec none (Except.ok [exMessage]) exQueryMessage).2.2
     [exMessage] rfl rfl rfl⟩

/-- Claim C9: when the state-machine commit of a Query message succeeds but
the history read fails, the response is success=false with empty (nil) data
and the history error as failure. -/
theorem deliver_commit_query_history_error (commitResult : Option GoError)
    (m : Message) (err : GoError) (h1 : commitResult = none)
    (h2 : m.Content.Operation = Operation.Query) :
    Deliver.Commit commitResult (Except.error err) m
      = { Success := false, Data := [], Failure := some err } := by
  subst h1
  simp [Deliver.Commit, h2]

/-- Witness for C9: a failed history read of a concrete query message. -/
theorem deliver_commit_query_history_error_witness :
    Deliver.Commit none (Except.error "history failed") exQueryMessage
      = { Success := false, Data := [], Failure := some "history failed" } :=
  deliver_commit_query_history_error none exQueryMessage "history failed"
    rfl rfl

/-- Claim C8 (code evaluation): when the gather wait elapses,
`Unity.emitGather` panics with "timeout gathering" instead of failing the
operation with a per-message Timeout error. -/
theorem emit_gather_timeout_panics :
    Unity.emitGather exGatherReq GatherOutcome.timeout
      = GatherResult.panicked "timeout gathering" := rfl

/-- Claim C10: `Unity.processGather` leaves the Unity state untouched and
builds a response with state S3 when the request timestamp is at least the
global clock reading, and otherwise state S2 carrying the clock reading. -/
theorem process_gather_frame (u : UnityState) (r : GatherRequest) :
    (Unity.processGather u r).1 = u
  ∧ (r.Timestamp ≥ u.clock.Tock →
      (Unity.processGather u r).2.State = MessageState.S3)
  ∧ (r.Timestamp < u.clock.Tock →
      (Unity.processGather u r).2.State = MessageState.S2
      ∧ (Unity.processGather u r).2.Timestamp = u.clock.Tock) := by
  refine ⟨?_, ?_, ?_⟩
  · unfold Unity.processGather
    split <;> rfl
  · intro h
    unfold Unity.processGather
    rw [if_pos h]
  · intro h
    unfold Unity.processGather
    rw [if_neg (by omega)]
    exact ⟨rfl, rfl⟩

/-- Witness for C10: `process_gather_frame` at a concrete state and request
whose timestamp is below the clock reading. -/
theorem process_gather_frame_witness :
    (Unity.processGather exUnity exGatherReq).1 = exUnity
  ∧ (Unity.processGather exUnity exGatherReq).2.State = MessageState.S2
  ∧ (Unity.processGather exUnity exGatherReq).2.Timestamp
      = exUnity.clock.Tock :=
  ⟨(process_gather_frame exUnity exGatherReq).1,
   ((process_gather_frame exUnity exGatherReq).2.2 (by decide)).1,
   ((process_gather_frame exUnity exGatherReq).2.2 (by decide)).2⟩

/-- Claim C7: an incoming message whose protocol version differs from the
peer's configured version is dropped: the peer state is untouched, the
message is not enqueued, and nothing is sent (so it can never reach a
commit). -/
theorem process_drops_version_mismatch (cfg : PeerConfiguration)
    (elig : Message → Bool) (s : PeerState) (message : Message)
    (h : message.Header.ProtocolVersion ≠ cfg.Version) :
    Peer.process cfg elig s message
      = { peer := s, message := message, enqueued := false, sends := [] } := by
  unfold Peer.process
  rw [if_pos h]

/-- Witness for C7: a concrete message with protocol version 2 arriving at
a peer configured for version 1. -/
theorem process_drops_version_mismatch_witness :
    Peer.process exCfg (fun _ => true) exPeerState
      { exMessage with
          Header := { ProtocolVersion := 2, MType := MessageType.Initial } }
      = { peer := exPeerState,
          message :=
            { exMessage with
                Header :=
                  { ProtocolVersion := 2, MType := MessageType.Initial } },
          enqueued := false, sends := [] } :=
  process_drops_version_mismatch exCfg (fun _ => true) exPeerState
    { exMessage with
        Header := { ProtocolVersion := 2, MType := MessageType.Initial } }
    (by decide)

/-- Counterexample for C6: at a concrete message and broadcast error, the
failure response is written to the channel yet the channel is not closed
and no observer is registered for the message, so `doDeliver` can never
close it either — refuting the claim that in both cases the channel is
closed after the response is sent. -/
theorem command_broadcast_failure_channel_not_closed :
    (Peer.Command (some "broadcast failed") exMessage).response
      = some { Success := false, Data := [exMessage.Content],
               Failure := some "broadcast failed" }
  ∧ (Peer.Command (some "broadcast failed") exMessage).closed = false
  ∧ (Peer.Command (some "broadcast failed") exMessage).registered
      = false := by
  decide

/-- Claim C6 as amended: `Peer.Command` yields one response per call — on a
broadcast error it writes a failure response carrying the error (and the
message content) without registering an observer, and the channel is left
open; on broadcast success it registers an observer and writes nothing, and
the channel is closed later by `doDeliver`, which sends the commit response
to the registered observer before closing and removing it. -/
theorem command_response_contract (message : Message) :
    (∀ err,
      Peer.Command (some err) message
        = { response :=
              some
                { Success := false, Data := [message.Content],
                  Failure := some err },
            registered := false, closed := false })
  ∧ Peer.Command none message
      = { response := none, registered := true, closed := false }
  ∧ (∀ res,
      Peer.doDeliver true false res
        = { notified := some res, closed := true, observerRemoved := true,
            memoRemoved := true })
  ∧ (∀ res,
      Peer.doDeliver false false res
        = { notified := none, closed := false, observerRemoved := false,
            memoRemoved := true }) :=
  ⟨fun _ => rfl, rfl, fun _ => rfl, fun _ => rfl⟩

/-- Claim C2: initial processing of a message in state S0 ticks the clock
exactly once and clears the previousSet when the message conflicts with the
previousSet snapshot, and in either case then sets the message timestamp to
the current clock reading and appends the message to the previousSet. -/
theorem initial_s0_tick_and_append (cfg : PeerConfiguration) (s : PeerState)
    (m : Message) (h : m.State = MessageState.S0) :
    (Peer.processInitialMessage cfg s m).1.clock
      = (if cfg.Conflict m s.previousSet then s.clock.Tick else s.clock)
  ∧ (Peer.processInitialMessage cfg s m).1.previousSet
      = (if cfg.Conflict m s.previousSet then [] else s.previousSet)
        ++ [{ m with Timestamp :=
              (if cfg.Conflict m s.previousSet then s.clock.Tick
               else s.clock).Tock }]
  ∧ (Peer.processInitialMessage cfg s m).2.1.Timestamp
      = (if cfg.Conflict m s.previousSet then s.clock.Tick
         else s.clock).Tock := by
  unfold Peer.processInitialMessage
  cases hc : cfg.Conflict m s.previousSet <;>
    simp [h, hc] <;> split <;> simp [h, LogicalClock.Tock]

/-- Witness for C2: `initial_s0_tick_and_append` at a concrete S0 message
under the always-conflicting relation: the clock ticks from 5 to 6, the
previousSet is cleared before the append, and the timestamp becomes 6. -/
theorem initial_s0_tick_and_append_witness :
    (Peer.processInitialMessage exCfgConflict exPeerState exMessage).1.clock
      = (if exCfgConflict.Conflict exMessage exPeerState.previousSet then
           exPeerState.clock.Tick
         else exPeerState.clock)
  ∧ (Peer.processInitialMessage exCfgConflict exPeerState
        exMessage).1.previousSet
      = (if exCfgConflict.Conflict exMessage exPeerState.previousSet then []
         else exPeerState.previousSet)
        ++ [{ exMessage with Timestamp :=
              (if exCfgConflict.Conflict exMessage exPeerState.previousSet
               then exPeerState.clock.Tick
               else exPeerState.clock).Tock }]
  ∧ (Peer.processInitialMessage exCfgConflict exPeerState
        exMessage).2.1.Timestamp
      = (if exCfgConflict.Conflict exMessage exPeerState.previousSet then
           exPeerState.clock.Tick
         else exPeerState.clock).Tock :=
  initial_s0_tick_and_append exCfgConflict exPeerState exMessage rfl

/-- Claim C3: initial processing of any message with exactly one destination
partition moves it to the final state S3 with its timestamp the current
clock reading, hands nothing to the transport, and performs no timestamp
exchange (the memo is untouched). -/
theorem initial_singleton_jumps_to_s3 (cfg : PeerConfiguration)
    (s : PeerState) (m : Message) (h : m.Destination.length = 1) :
    (Peer.processInitialMessage cfg s m).2.1.State = MessageState.S3
  ∧ (Peer.processInitialMessage cfg s m).2.1.Timestamp
      = (Peer.processInitialMessage cfg s m).1.clock.Tock
  ∧ (Peer.processInitialMessage cfg s m).2.2 = []
  ∧ (Peer.processInitialMessage cfg s m).1.received = s.received := by
  unfold Peer.processInitialMessage
  have hgt : ¬ (m.Destination.length > 1) := by omega
  by_cases hs : m.State = MessageState.S0
  · cases hc : cfg.Conflict m s.previousSet <;> simp [hs, hc, hgt]
  · simp [hs, hgt]

/-- Witness for C3: `initial_singleton_jumps_to_s3` at a concrete message
addressed to the single partition A. -/
theorem initial_singleton_jumps_to_s3_witness :
    (Peer.processInitialMessage exCfg exPeerState exMessage).2.1.State
      = MessageState.S3
  ∧ (Peer.processInitialMessage exCfg exPeerState exMessage).2.1.Timestamp
      = (Peer.processInitialMessage exCfg exPeerState exMessage).1.clock.Tock
  ∧ (Peer.processInitialMessage exCfg exPeerState exMessage).2.2 = []
  ∧ (Peer.processInitialMessage exCfg exPeerState exMessage).1.received
      = exPeerState.received :=
  initial_singleton_jumps_to_s3 exCfg exPeerState exMessage rfl

/-- Claim C4: re-processing a multi-destination S2 message as Initial moves
it to S3 keeping its timestamp; when the message timestamp exceeds the
clock reading the clock leaps to it and the previousSet is cleared, and
otherwise the peer state is untouched; in both cases the clock reading
afterwards is at least the message timestamp. -/
theorem s2_reprocess_finalizes (cfg : PeerConfiguration) (s : PeerState)
    (m : Message) (h2 : m.State = MessageState.S2)
    (hd : m.Destination.length > 1) :
    (Peer.processInitialMessage cfg s m).2.1.State = MessageState.S3
  ∧ (Peer.processInitialMessage cfg s m).2.1.Timestamp = m.Timestamp
  ∧ (m.Timestamp > s.clock.Tock →
      (Peer.processInitialMessage cfg s m).1.clock = s.clock.Leap m.Timestamp
      ∧ (Peer.processInitialMessage cfg s m).1.previousSet = [])
  ∧ (¬ m.Timestamp > s.clock.Tock →
      (Peer.processInitialMessage cfg s m).1 = s)
  ∧ (Peer.processInitialMessage cfg s m).1.clock.Tock ≥ m.Timestamp := by
  unfold Peer.processInitialMessage
  by_cases hl : m.Timestamp > s.clock.value
  · simp [h2, hd, hl, LogicalClock.Leap, LogicalClock.Tock]
  · simp [h2, hd, hl, LogicalClock.Leap, LogicalClock.Tock]
    omega

/-- Witness for C4: `s2_reprocess_finalizes` at a concrete S2 message with
timestamp 9 against a clock reading 5: the clock leaps to 9 and the
previousSet is cleared. -/
theorem s2_reprocess_finalizes_witness :
    (Peer.processInitialMessage exCfg exPeerState
        { exMessage with
            State := MessageState.S2
            Timestamp := 9
            Destination := ["A", "B"] }).2.1.State = MessageState.S3
  ∧ (Peer.processInitialMessage exCfg exPeerState
        { exMessage with
            State := MessageState.S2
            Timestamp := 9
            Destination := ["A", "B"] }).1.clock
      = exPeerState.clock.Leap 9
  ∧ (Peer.processInitialMessage exCfg exPeerState
        { exMessage with
            State := MessageState.S2
            Timestamp := 9
            Destination := ["A", "B"] }).1.previousSet = []
  ∧ (Peer.processInitialMessage exCfg exPeerState
        { exMessage with
            State := MessageState.S2
            Timestamp := 9
            Destination := ["A", "B"] }).1.clock.Tock ≥ 9 :=
  ⟨(s2_reprocess_finalizes exCfg exPeerState
      { exMessage with
          State := MessageState.S2
          Timestamp := 9
          Destination := ["A", "B"] } rfl (by decide)).1,
   ((s2_reprocess_finalizes exCfg exPeerState
      { exMessage with
          State := MessageState.S2
          Timestamp := 9
          Destination := ["A", "B"] } rfl (by decide)).2.2.1 (by decide)).1,
   ((s2_reprocess_finalizes exCfg exPeerState
      { exMessage with
          State := MessageState.S2
          Timestamp := 9
          Destination := ["A", "B"] } rfl (by decide)).2.2.1 (by decide)).2,
   (s2_reprocess_finalizes exCfg exPeerState
      { exMessage with
          State := MessageState.S2
          Timestamp := 9
          Destination := ["A", "B"] } rfl (by decide)).2.2.2.2⟩

/-- Claim C1: processing an External message records its timestamp in the
memo keyed by `(m.Identifier, m.From)`; while fewer than `|m.Destination|`
timestamps are recorded the message is left unchanged and not enqueued;
once that many are recorded, with tsm the maximum recorded timestamp, the
message is enqueued, jumping to S3 with timestamp unchanged when
`m.Timestamp ≥ tsm`, and otherwise lifted to timestamp tsm in state S2. -/
theorem external_exchange_rule (cfg : PeerConfiguration)
    (elig : Message → Bool) (s : PeerState) (m : Message)
    (hv : m.Header.ProtocolVersion = cfg.Version)
    (ht : m.Header.MType = MessageType.External) (he : elig m = true) :
    (Peer.process cfg elig s m).peer.received
      = s.received.Insert m.Identifier m.From m.Timestamp
  ∧ (((s.received.Insert m.Identifier m.From m.Timestamp).Read
        m.Identifier).length < m.Destination.length →
      (Peer.process cfg elig s m).enqueued = false
      ∧ (Peer.process cfg elig s m).message = m)
  ∧ (¬ ((s.received.Insert m.Identifier m.From m.Timestamp).Read
        m.Identifier).length < m.Destination.length →
      (Peer.process cfg elig s m).enqueued = true
      ∧ (m.Timestamp
            ≥ MaxValue ((s.received.Insert m.Identifier m.From
                m.Timestamp).Read m.Identifier) →
          (Peer.process cfg elig s m).message
            = { m with State := MessageState.S3 })
      ∧ (¬ m.Timestamp
            ≥ MaxValue ((s.received.Insert m.Identifier m.From
                m.Timestamp).Read m.Identifier) →
          (Peer.process cfg elig s m).message
            = { m with
                  Timestamp :=
                    MaxValue ((s.received.Insert m.Identifier m.From
                      m.Timestamp).Read m.Identifier),
                  State := MessageState.S2 })) := by
  have hp : ¬ (m.Header.ProtocolVersion ≠ cfg.Version) := by simp [hv]
  by_cases hlen :
      ((s.received.Insert m.Identifier m.From m.Timestamp).Read
        m.Identifier).length < m.Destination.length
  · simp [Peer.process, Peer.exchangeTimestamp, hp, ht, he, hlen]
  · by_cases hts :
        m.Timestamp
          ≥ MaxValue ((s.received.Insert m.Identifier m.From
              m.Timestamp).Read m.Identifier) <;>
      simp [Peer.process, Peer.exchangeTimestamp, hp, ht, he, hlen, hts]

/-- Witness for C1: `external_exchange_rule` at a concrete External message
from partition B with timestamp 3, addressed to partitions A and B, where
partition A already recorded timestamp 5: both timestamps are present, the
maximum is 5, and since 3 < 5 the message is enqueued in state S2 with
timestamp 5. -/
theorem external_exchange_rule_witness :
    (Peer.process exCfg (fun _ => true) exPeerState
        { exMessage with
            Header := { ProtocolVersion := 1, MType := MessageType.External },
            State := MessageState.S1, Timestamp := 3,
            Destination := ["A", "B"], From := "B" }).enqueued = true
  ∧ (Peer.process exCfg (fun _ => true) exPeerState
        { exMessage with
            Header := { ProtocolVersion := 1, MType := MessageType.External },
            State := MessageState.S1, Timestamp := 3,
            Destination := ["A", "B"], From := "B" }).message
      = { exMessage with
            Header := { ProtocolVersion := 1, MType := MessageType.External },
            State := MessageState.S2,
            Timestamp :=
              MaxValue ((exPeerState.received.Insert "uid-1" "B" 3).Read
                "uid-1"),
            Destination := ["A", "B"], From := "B" } :=
  ⟨((external_exchange_rule exCfg (fun _ => true) exPeerState
      { exMessage with
          Header := { ProtocolVersion := 1, MType := MessageType.External },
          State := MessageState.S1, Timestamp := 3,
          Destination := ["A", "B"], From := "B" } rfl rfl rfl).2.2
      (by decide)).1,
   ((external_exchange_rule exCfg (fun _ => true) exPeerState
      { exMessage with
          Header := { ProtocolVersion := 1, MType := MessageType.External },
          State := MessageState.S1, Timestamp := 3,
          Destination := ["A", "B"], From := "B" } rfl rfl rfl).2.2
      (by decide)).2.2 (by decide)⟩

end GoMcast
